import Mathlib

set_option maxHeartbeats 1000000
set_option maxRecDepth 16000

/-!
Shallow embedding of the oneforall-go core: the liveness validator
(`internal/validator/validator.go`), the brute-force engine with
statistical wildcard detection (`internal/brute/brute.go`), the
dispatcher staging logic (`internal/core/dispatcher.go`), and the
post-processing pass (`PostProcessHosts`).  Network effects (DNS
resolution, TCP connects, HTTP fetches) are supplied as explicit
oracle functions; the rest of each definition follows the Go source
line by line.  Go string primitives (strings.ToLower,
strings.TrimSpace, strings.HasPrefix) are modelled by structural
character-list functions at the ASCII level so that every definition
evaluates inside the kernel.
-/

/-- Models Go `strings.ToLower` at the ASCII level: lowercase every
character. -/
def strToLower (s : String) : String :=
  ⟨s.data.map Char.toLower⟩

/-- Models Go `strings.TrimSpace`: drop leading and trailing
whitespace characters. -/
def strTrim (s : String) : String :=
  ⟨((s.data.dropWhile Char.isWhitespace).reverse.dropWhile Char.isWhitespace).reverse⟩

/-- Models Go `strings.HasPrefix`. -/
def strStartsWith (s pre : String) : Bool :=
  pre.data.isPrefixOf s.data

/-- Network oracle for the validator.  `resolveDomain` returns the
filtered IP list produced by `resolveDomain` in `validator.go` (empty
list on lookup failure or when every address is filtered out), and
`tcpConnect ip port` tells whether `net.DialTimeout("tcp", ip:port, 5s)`
succeeds. -/
structure NetEnv where
  resolveDomain : String → List String
  tcpConnect : String → Nat → Bool

/-- Embeds `validator.ValidationResult`.  The `time` field of the Go
struct holds a wall-clock timestamp; it is carried as a plain string
and left empty by the model. -/
structure ValidationResult where
  subdomain : String
  ip : List String
  status : Int
  title : String
  port : Nat
  alive : Bool
  source : String
  time : String
  provider : String
  dnsResolved : Bool
  pingAlive : Bool
  statusCode : Int
  statusText : String
  deriving Repr, DecidableEq

/-- Embeds `DomainValidator.validatePing` (validator.go:492): TCP
connect to port 80 first, then port 443 on failure; true iff either
connect succeeds. -/
def validatePing (env : NetEnv) (ip : String) : Bool :=
  if env.tcpConnect ip 80 then true
  else if env.tcpConnect ip 443 then true
  else false

/-- Embeds `DomainValidator.queryIPProvider` (validator.go:379): a
constant-string table keyed by provider name. -/
def queryIPProvider (_ip : String) (provider : String) : String :=
  if provider = "ipinfo.io" then "IPInfo"
  else if provider = "ip-api.com" then "IP-API"
  else if provider = "ipapi.co" then "IPAPI"
  else if provider = "ipgeolocation.io" then "IPGeolocation"
  else ""

/-- Embeds `DomainValidator.getIPProvider` (validator.go:359): return
the first provider table hit, or "Unknown". -/
def getIPProvider (ip : String) : String :=
  let providers := ["ipinfo.io", "ip-api.com", "ipapi.co", "ipgeolocation.io"]
  match (providers.map (queryIPProvider ip)).find? (fun s => s ≠ "") with
  | some s => s
  | none => "Unknown"

/-- Embeds `DomainValidator.validateSingleDomain` (validator.go:148):
start from the zeroed result record, resolve DNS, then TCP-probe the
first resolved IP; set status fields per branch. -/
def validateSingleDomain (env : NetEnv) (domain : String) : ValidationResult :=
  let base : ValidationResult :=
    { subdomain := domain, ip := [], status := 0, title := "", port := 0,
      alive := false, source := "validator", time := "", provider := "",
      dnsResolved := false, pingAlive := false, statusCode := 0, statusText := "" }
  match env.resolveDomain domain with
  | [] =>
      { base with statusCode := -1, statusText := "DNS Resolution Failed" }
  | ip0 :: rest =>
      if validatePing env ip0 then
        { base with
          ip := ip0 :: rest, dnsResolved := true, pingAlive := true,
          alive := true, statusCode := 200, statusText := "Alive",
          provider := getIPProvider ip0 }
      else
        { base with
          ip := ip0 :: rest, dnsResolved := true, pingAlive := false,
          statusCode := 0, statusText := "Ping Failed" }

/-- DNS resource record, restricted to the record types the brute engine
inspects (`dns.A`, `dns.CNAME` in brute.go). -/
inductive DNSRecord where
  | a (ip : String)
  | cname (target : String)
  deriving Repr, DecidableEq

/-- Embeds `Brute.queryA` (brute.go:295) applied to one DNS answer
section: keep the A records only (a `*dns.A` type switch); CNAME
answers in the section are ignored. -/
def queryA (answer : List DNSRecord) : List String :=
  answer.filterMap (fun r =>
    match r with
    | DNSRecord.a ip => some ip
    | DNSRecord.cname _ => none)

/-- Embeds `brute.BruteResult`. -/
structure BruteResult where
  subdomain : String
  ips : List String
  cnames : List String
  valid : Bool
  deriving Repr, DecidableEq

/-- Embeds `Brute.querySubdomain` (brute.go:762): only the A query is
issued; the result is valid iff it returned at least one IP, and the
CNAMEs field is never populated. -/
def querySubdomain (sub : String) (answer : List DNSRecord) : BruteResult :=
  let ips := queryA answer
  if ips = [] then
    { subdomain := sub, ips := [], cnames := [], valid := false }
  else
    { subdomain := sub, ips := ips, cnames := [], valid := true }

/-- Embeds `Brute.isValidSubdomain` (brute.go:828): true iff the result
has at least one IP or at least one CNAME. -/
def isValidSubdomain (r : BruteResult) : Bool :=
  !r.ips.isEmpty || !r.cnames.isEmpty

/-- Embeds `brute.WildcardDetectionResult`; the two rate fields are
float64 in Go and are modelled as exact rationals. -/
structure WildcardDetectionResult where
  isWildcard : Bool
  successRate : ℚ
  ipRepeatRate : ℚ
  testCount : Nat
  successCount : Nat
  uniqueIPs : Nat
  totalIPs : Nat
  deriving Repr, DecidableEq

/-- All IPs of the valid probes, with multiplicity: the multiset whose
per-IP counts the Go code accumulates in the `allIPs` map
(brute.go:453-463). -/
def wildcardIPList (probes : List BruteResult) : List String :=
  (probes.filter (fun p => p.valid)).flatMap (fun p => p.ips)

/-- Embeds `WildcardDetectionResult.calculateStatistics`
(brute.go:628): success rate from the test count, unique and total IP
counts from the `allIPs` map (here: the IP multiset), and the repeat
rate when any IP resolved. -/
def calculateStatistics (r : WildcardDetectionResult) (allIPs : List String) :
    WildcardDetectionResult :=
  let r1 :=
    if r.testCount > 0 then
      { r with successRate := (r.successCount : ℚ) / (r.testCount : ℚ) * 100 }
    else r
  let r2 := { r1 with uniqueIPs := allIPs.dedup.length, totalIPs := allIPs.length }
  if r2.totalIPs > 0 then
    { r2 with
      ipRepeatRate := ((r2.totalIPs : ℚ) - (r2.uniqueIPs : ℚ)) / (r2.totalIPs : ℚ) * 100 }
  else r2

/-- Embeds `Brute.detectWildcardAdvanced` (brute.go:400) as a function
of the 20 probe outcomes: count the valid probes, accumulate their IPs,
compute the statistics, then flag a wildcard iff the success rate
exceeds 90 and the IP repeat rate exceeds 50. -/
def detectWildcardAdvanced (probes : List BruteResult) : WildcardDetectionResult :=
  let init : WildcardDetectionResult :=
    { isWildcard := false, successRate := 0, ipRepeatRate := 0,
      testCount := 20, successCount := 0, uniqueIPs := 0, totalIPs := 0 }
  let counted := { init with successCount := (probes.filter (fun p => p.valid)).length }
  let stats := calculateStatistics counted (wildcardIPList probes)
  { stats with
    isWildcard := if stats.successRate > 90 ∧ stats.ipRepeatRate > 50 then true else false }

/-- Embeds the wildcard gate of `Brute.Run` (brute.go:114-131): when
the detection flags a wildcard, return the empty list and a nil error
without entering the dictionary phase (passed here as a thunk); the
dictionary phase also reports a nil error on success. -/
def bruteRun (wd : WildcardDetectionResult) (dictionaryPhase : Unit → List String) :
    List String × Option String :=
  if wd.isWildcard then ([], none) else (dictionaryPhase (), none)

/-- Twenty wildcard probes that all resolved to the one fixed IP
5.5.5.5, the end-to-end scenario of C3. -/
def wildcardProbes : List BruteResult :=
  List.replicate 20
    { subdomain := "t.example.com", ips := ["5.5.5.5"], cnames := [], valid := true }

/-- Embeds `Brute.generateDict` (brute.go:499): for each wordlist line,
trim it, skip blank lines and lines starting with '#', and emit
word + "." + domain for the rest, in file order. -/
def generateDict (domain : String) (fileLines : List String) : List String :=
  fileLines.foldr
    (fun line acc =>
      let word := strTrim line
      if word = "" ∨ strStartsWith word "#" then acc
      else (word ++ "." ++ domain) :: acc)
    []

/-- A string free of whitespace and of ASCII control characters
(code points below 32, and 127). -/
def cleanString (s : String) : Prop :=
  ∀ ch ∈ s.data, ch.isWhitespace = false ∧ 32 ≤ ch.toNat ∧ ch.toNat ≠ 127

instance instDecidableCleanString (s : String) : Decidable (cleanString s) :=
  List.decidableBAll _ s.data

/-- Outcome of one Collector's `Run(domain)` call: a subdomain list, an
error, or a recovered panic. -/
inductive ModuleOutcome where
  | ok (subdomains : List String)
  | err (msg : String)
  | panicked (msg : String)
  deriving Repr, DecidableEq

/-- A registered Collector as the stage runner sees it: its name, its
enabled flag, and the outcome its `Run` produces for the domain of this
run. -/
structure ModuleSpec where
  name : String
  enabled : Bool
  outcome : ModuleOutcome
  deriving Repr, DecidableEq

/-- Embeds the data flow of `Dispatcher.runModulesWithConcurrency`
(dispatcher.go:675): disabled modules are skipped; each enabled
module's successful subdomains are appended to the shared result list;
errors and recovered panics are appended to the error log; the function
returns the aggregated results, the log, and always a nil error. -/
def runModulesWithConcurrency (modules : List ModuleSpec) :
    List String × List String × Option String :=
  if modules = [] then ([], [], none)
  else
    let enabled := modules.filter (fun m => m.enabled)
    let allResults := enabled.flatMap (fun m =>
      match m.outcome with
      | ModuleOutcome.ok subs => subs
      | ModuleOutcome.err _ => []
      | ModuleOutcome.panicked _ => [])
    let errorLog := enabled.flatMap (fun m =>
      match m.outcome with
      | ModuleOutcome.ok _ => []
      | ModuleOutcome.err e => [m.name ++ ": " ++ e]
      | ModuleOutcome.panicked e => ["panic in " ++ m.name ++ ": " ++ e])
    (allResults, errorLog, none)

/-- Embeds `DomainValidator.deduplicateDomains` (validator.go:397) as a
loop over the remaining input carrying the seen set: normalize each
entry (trim, then lowercase), skip empty or already-seen entries. -/
def dedupLoop : List String → List String → List String
  | [], _ => []
  | d :: rest, seen =>
      let normalized := strToLower (strTrim d)
      if normalized ≠ "" ∧ normalized ∉ seen then
        normalized :: dedupLoop rest (normalized :: seen)
      else dedupLoop rest seen

/-- Embeds `DomainValidator.deduplicateDomains` (validator.go:397). -/
def deduplicateDomains (domains : List String) : List String :=
  dedupLoop domains []

/-- Embeds `DomainValidator.ValidateDomains` (validator.go:81): empty
input short-circuits; otherwise every deduplicated candidate is
validated and contributes exactly one result, dead or alive. -/
def ValidateDomains (env : NetEnv) (domains : List String) : List ValidationResult :=
  if domains = [] then []
  else (deduplicateDomains domains).map (validateSingleDomain env)

/-- Embeds the per-stage cross-referencing loop of
`Dispatcher.RunAllModules` (dispatcher.go:276-290): keep a stage's
subdomain iff some validation result carries exactly that string. -/
def crossReferenceStep (stepResults : List String) (vres : List ValidationResult) :
    List String :=
  stepResults.filter (fun s => vres.any (fun v => v.subdomain == s))

/-- Return value of `Dispatcher.RunAllModules` (dispatcher.go:195): the
per-stage result lists, the aggregated subdomain list, the validation
results, and the returned error. -/
structure RunOutcome where
  stepResults : List (List String)
  allSubdomains : List String
  validationResults : List ValidationResult
  runError : Option String
  deriving Repr, DecidableEq

/-- Embeds `Dispatcher.RunAllModules` (dispatcher.go:195): run every
stage, concatenate the stage outputs, and, when domain validation is
enabled and the candidate set is non-empty, validate once over the
union, cross-reference each stage list against the validation results,
and rebuild the aggregate list from the validation results; the
returned error is always nil. -/
def RunAllModules (env : NetEnv) (stages : List (List ModuleSpec))
    (validationEnabled : Bool) : RunOutcome :=
  let stepResults := stages.map (fun st => (runModulesWithConcurrency st).1)
  let allSubdomains := stepResults.flatten
  if validationEnabled = true ∧ allSubdomains ≠ [] then
    let vres := ValidateDomains env allSubdomains
    { stepResults := stepResults.map (fun sr => crossReferenceStep sr vres),
      allSubdomains := vres.map (fun v => v.subdomain),
      validationResults := vres,
      runError := none }
  else
    { stepResults := stepResults, allSubdomains := allSubdomains,
      validationResults := [], runError := none }

/-- Embeds `core.SubdomainResult` from the output module. -/
structure SubdomainResult where
  subdomain : String
  ip : List String
  status : Int
  title : String
  port : Nat
  alive : Bool
  source : String
  time : String
  provider : String
  dnsResolved : Bool
  pingAlive : Bool
  statusCode : Int
  statusText : String
  deriving Repr, DecidableEq

/-- HTTP probe oracle for one host: the status and extracted title the
`fetchOnce` helper would return for the HTTPS attempt and for the HTTP
fallback (status 0 stands for a transport error, title "" when the
status is not 200). -/
structure FetchOutcome where
  httpsStatus : Int
  httpsTitle : String
  httpStatus : Int
  httpTitle : String
  deriving Repr, DecidableEq

/-- Protocol over which the kept response was fetched. -/
inductive Protocol where
  | https
  | http
  deriving Repr, DecidableEq

/-- Final status, title and protocol after the HTTPS-then-HTTP
fallback. -/
structure FetchFinal where
  status : Int
  title : String
  protocol : Protocol
  deriving Repr, DecidableEq

/-- Embeds the fetch closure of `PostProcessHosts`: try HTTPS first
(certificate validation disabled); on any non-200 status fall back to
plain HTTP and use that status and title. -/
def fetchHost (probe : String → FetchOutcome) (host : String) : FetchFinal :=
  let o := probe host
  if o.httpsStatus = 200 then
    { status := o.httpsStatus, title := o.httpsTitle, protocol := Protocol.https }
  else
    { status := o.httpStatus, title := o.httpTitle, protocol := Protocol.http }

/-- One accumulated host record of the post-processing pass
(the `tmp` struct of `PostProcessHosts`). -/
structure HostRecord where
  host : String
  status : Int
  title : String
  protocol : Protocol
  deriving Repr, DecidableEq

/-- Accumulator of the post-processing pass: title keys of the kept
HTTP-200 records, the kept HTTP-200 records in arrival order, and all
HTTP-403 records in arrival order. -/
structure PPState where
  okTitles : List String
  okOrdered : List HostRecord
  forbidden : List HostRecord
  deriving Repr, DecidableEq

/-- Embeds one iteration of the fetch loop of `PostProcessHosts`: a
200 response is kept only if its title key is new; a 403 response is
appended to the forbidden list; everything else is dropped. -/
def processHost (probe : String → FetchOutcome) (st : PPState) (host : String) : PPState :=
  let f := fetchHost probe host
  if f.status = 200 then
    if f.title ∈ st.okTitles then st
    else
      { st with
        okTitles := st.okTitles ++ [f.title],
        okOrdered := st.okOrdered ++
          [{ host := host, status := f.status, title := strTrim f.title,
             protocol := f.protocol }] }
  else if f.status = 403 then
    { st with
      forbidden := st.forbidden ++
        [{ host := host, status := f.status, title := strTrim f.title,
           protocol := f.protocol }] }
  else st

/-- Embeds `uniqueStrings` from the post-processing module: lowercase,
trim, drop empties and duplicates, keep first occurrences in order. -/
def uniqueStringsLoop : List String → List String → List String
  | [], _ => []
  | v :: rest, seen =>
      let n := strTrim (strToLower v)
      if n = "" ∨ n ∈ seen then uniqueStringsLoop rest seen
      else n :: uniqueStringsLoop rest (n :: seen)

/-- Embeds `uniqueStrings` from the post-processing module. -/
def uniqueStrings (l : List String) : List String :=
  uniqueStringsLoop l []

/-- Models Go `net/http.StatusText` for the status codes the
post-processor stores. -/
def httpStatusText (code : Int) : String :=
  if code = 200 then "OK"
  else if code = 403 then "Forbidden"
  else ""

/-- Port number recorded per protocol by `PostProcessHosts`. -/
def protocolPort (p : Protocol) : Nat :=
  match p with
  | Protocol.https => 443
  | Protocol.http => 80

/-- The SubdomainResult built for a kept HTTP-200 record. -/
def okEntry (r : HostRecord) : SubdomainResult :=
  { subdomain := r.host, ip := [], status := r.status, title := r.title,
    port := protocolPort r.protocol, alive := true, source := "postprocess",
    time := "", provider := "", dnsResolved := false, pingAlive := false,
    statusCode := r.status, statusText := httpStatusText r.status }

/-- The SubdomainResult built for a kept HTTP-403 record. -/
def forbiddenEntry (r : HostRecord) : SubdomainResult :=
  { subdomain := r.host, ip := [], status := r.status, title := r.title,
    port := protocolPort r.protocol, alive := false, source := "postprocess",
    time := "", provider := "", dnsResolved := false, pingAlive := false,
    statusCode := r.status, statusText := httpStatusText r.status }

/-- Embeds `PostProcessHosts` (file part_012): a no-op (`none`) unless
the host list is larger than the limit (config value, defaulted to 30
when non-positive); otherwise deduplicate the hosts, fetch each one,
keep the first HTTP-200 response per title and all HTTP-403 responses
unless their count exceeds the limit, in which case only the first.
The concurrency bound of the Go code only gates in-flight fetches and
does not affect the result contents, so it is not a parameter here. -/
def PostProcessHosts (probe : String → FetchOutcome) (resultCheckLimit : Int)
    (hosts : List String) : Option (List SubdomainResult) :=
  let limit : Int := if resultCheckLimit ≤ 0 then 30 else resultCheckLimit
  if (hosts.length : Int) ≤ limit then none
  else
    let finalState := (uniqueStrings hosts).foldl (processHost probe)
      { okTitles := [], okOrdered := [], forbidden := [] }
    let appendForbidden :=
      if (finalState.forbidden.length : Int) > limit then finalState.forbidden.take 1
      else finalState.forbidden
    some (finalState.okOrdered.map okEntry ++ appendForbidden.map forbiddenEntry)

/-- The 50-host scenario of C9: 40 hosts a0..a39 answering HTTP 200
with one shared title, 10 hosts b0..b9 answering HTTP 403. -/
def demoHosts : List String :=
  (List.range 40).map (fun i => "a" ++ Nat.repr i) ++
    (List.range 10).map (fun i => "b" ++ Nat.repr i)

/-- Probe for the C9 scenario: hosts starting with "a" return HTTPS 200
with the shared title "Default Page"; the rest return 403 over both
schemes. -/
def demoProbe (host : String) : FetchOutcome :=
  if strStartsWith host "a" then
    { httpsStatus := 200, httpsTitle := "Default Page", httpStatus := 0, httpTitle := "" }
  else
    { httpsStatus := 403, httpsTitle := "", httpStatus := 403, httpTitle := "" }

/-- Probe for the C10 witness: one host answers 200, the other
redirects over HTTPS (301) and is missing over HTTP (404). -/
def dropProbe (host : String) : FetchOutcome :=
  if host = "ok.example.com" then
    { httpsStatus := 200, httpsTitle := "Welcome", httpStatus := 200, httpTitle := "Welcome" }
  else
    { httpsStatus := 301, httpsTitle := "", httpStatus := 404, httpTitle := "" }

/-- C1: for every candidate, DNS failure yields
dnsResolved=false, pingAlive=false, alive=false, statusCode=-1,
statusText="DNS Resolution Failed"; DNS success with both TCP probes on
the first resolved IP failing yields alive=false, statusCode=0,
statusText="Ping Failed"; DNS success with either TCP probe succeeding
yields alive=true, statusCode=200, statusText="Alive". -/
theorem validateSingleDomain_status_classification (env : NetEnv) (domain : String) :
    (env.resolveDomain domain = [] →
      (validateSingleDomain env domain).dnsResolved = false ∧
      (validateSingleDomain env domain).pingAlive = false ∧
      (validateSingleDomain env domain).alive = false ∧
      (validateSingleDomain env domain).statusCode = -1 ∧
      (validateSingleDomain env domain).statusText = "DNS Resolution Failed") ∧
    (∀ ip0 rest, env.resolveDomain domain = ip0 :: rest →
      env.tcpConnect ip0 80 = false → env.tcpConnect ip0 443 = false →
      (validateSingleDomain env domain).dnsResolved = true ∧
      (validateSingleDomain env domain).alive = false ∧
      (validateSingleDomain env domain).statusCode = 0 ∧
      (validateSingleDomain env domain).statusText = "Ping Failed") ∧
    (∀ ip0 rest, env.resolveDomain domain = ip0 :: rest →
      (env.tcpConnect ip0 80 = true ∨ env.tcpConnect ip0 443 = true) →
      (validateSingleDomain env domain).alive = true ∧
      (validateSingleDomain env domain).statusCode = 200 ∧
      (validateSingleDomain env domain).statusText = "Alive") := by
  refine ⟨?_, ?_, ?_⟩
  · intro h
    simp [validateSingleDomain, h]
  · intro ip0 rest h h80 h443
    simp [validateSingleDomain, h, validatePing, h80, h443]
  · intro ip0 rest h hor
    rcases hor with h80 | h443
    · simp [validateSingleDomain, h, validatePing, h80]
    · cases h80 : env.tcpConnect ip0 80 <;>
        simp [validateSingleDomain, h, validatePing, h80, h443]

/-- C1 witness: a concrete environment in which DNS resolves one IP and
the port-80 probe succeeds classifies the candidate as alive with
statusCode 200. -/
theorem validateSingleDomain_status_classification_witness :
    (validateSingleDomain ⟨fun _ => ["1.2.3.4"], fun _ _ => true⟩ "www.example.com").alive = true ∧
    (validateSingleDomain ⟨fun _ => ["1.2.3.4"], fun _ _ => true⟩ "www.example.com").statusCode = 200 := by
  have h := validateSingleDomain_status_classification
    ⟨fun _ => ["1.2.3.4"], fun _ _ => true⟩ "www.example.com"
  have h3 := h.2.2 "1.2.3.4" [] rfl (Or.inl rfl)
  exact ⟨h3.1, h3.2.1⟩

/-- Helper: the fields of the wildcard detection outcome, expressed over
the probe list. -/
theorem detectWildcard_fields (probes : List BruteResult) :
    (detectWildcardAdvanced probes).testCount = 20 ∧
    (detectWildcardAdvanced probes).successCount =
      (probes.filter (fun p => p.valid)).length ∧
    (detectWildcardAdvanced probes).totalIPs = (wildcardIPList probes).length ∧
    (detectWildcardAdvanced probes).uniqueIPs = (wildcardIPList probes).dedup.length ∧
    (detectWildcardAdvanced probes).successRate =
      (((probes.filter (fun p => p.valid)).length : ℚ) / 20) * 100 ∧
    (detectWildcardAdvanced probes).ipRepeatRate =
      (if 0 < (wildcardIPList probes).length then
        (((wildcardIPList probes).length : ℚ) - ((wildcardIPList probes).dedup.length : ℚ)) /
          ((wildcardIPList probes).length : ℚ) * 100
      else 0) := by
  simp only [detectWildcardAdvanced, calculateStatistics]
  split_ifs with h1 h2 <;> simp_all

/-- Helper: the wildcard flag is the conjunction of the two threshold
tests. -/
theorem detectWildcard_flag (probes : List BruteResult) :
    (detectWildcardAdvanced probes).isWildcard = true ↔
      ((detectWildcardAdvanced probes).successRate > 90 ∧
        (detectWildcardAdvanced probes).ipRepeatRate > 50) := by
  simp only [detectWildcardAdvanced, calculateStatistics]
  split_ifs with h1 h2 <;> simp_all

/-- C2: the detection statistics satisfy
successRate = successCount / testCount * 100,
ipRepeatRate = (totalIPs - uniqueIPs) / totalIPs * 100 when totalIPs > 0
and 0 otherwise, isWildcard iff successRate > 90 and ipRepeatRate > 50;
and when every probe failed to resolve any IP the domain is not flagged
as a wildcard. -/
theorem detectWildcardAdvanced_statistics_spec (probes : List BruteResult) :
    (detectWildcardAdvanced probes).successRate =
      ((detectWildcardAdvanced probes).successCount : ℚ) /
        ((detectWildcardAdvanced probes).testCount : ℚ) * 100 ∧
    ((detectWildcardAdvanced probes).totalIPs > 0 →
      (detectWildcardAdvanced probes).ipRepeatRate =
        (((detectWildcardAdvanced probes).totalIPs : ℚ) -
          ((detectWildcardAdvanced probes).uniqueIPs : ℚ)) /
          ((detectWildcardAdvanced probes).totalIPs : ℚ) * 100) ∧
    ((detectWildcardAdvanced probes).totalIPs = 0 →
      (detectWildcardAdvanced probes).ipRepeatRate = 0) ∧
    ((detectWildcardAdvanced probes).isWildcard = true ↔
      ((detectWildcardAdvanced probes).successRate > 90 ∧
        (detectWildcardAdvanced probes).ipRepeatRate > 50)) ∧
    ((∀ p ∈ probes, p.valid = false ∧ p.ips = []) →
      (detectWildcardAdvanced probes).isWildcard = false) := by
  obtain ⟨htc, hsc, htot, huniq, hrate, hrep⟩ := detectWildcard_fields probes
  refine ⟨?_, ?_, ?_, detectWildcard_flag probes, ?_⟩
  · rw [hrate, hsc, htc]
    norm_num
  · intro hpos
    rw [htot] at hpos
    rw [hrep, htot, huniq, if_pos hpos]
  · intro hzero
    rw [htot] at hzero
    rw [hrep, if_neg (by omega)]
  · intro hall
    have hfail : probes.filter (fun p => p.valid) = [] := by
      rw [List.filter_eq_nil_iff]
      intro p hp
      simp [(hall p hp).1]
    by_contra hcon
    rw [Bool.not_eq_false] at hcon
    have := (detectWildcard_flag probes).mp hcon
    rw [hrate, hfail] at this
    norm_num at this

/-- C2 witness: with a single probe that resolved nothing, the detection
reports no wildcard. -/
theorem detectWildcardAdvanced_statistics_spec_witness :
    (detectWildcardAdvanced
      [{ subdomain := "q.example.com", ips := [], cnames := [], valid := false }]).isWildcard
      = false := by
  have h := detectWildcardAdvanced_statistics_spec
    [{ subdomain := "q.example.com", ips := [], cnames := [], valid := false }]
  exact h.2.2.2.2 (by intro p hp; simp_all)

/-- Helper: the detection statistics on the 20 fixed-IP probes. -/
theorem wildcardProbes_rates :
    (detectWildcardAdvanced wildcardProbes).successRate = 100 ∧
    (detectWildcardAdvanced wildcardProbes).ipRepeatRate = 95 ∧
    (detectWildcardAdvanced wildcardProbes).isWildcard = true := by
  obtain ⟨htc, hsc, htot, huniq, hrate, hrep⟩ := detectWildcard_fields wildcardProbes
  have hflen : (wildcardProbes.filter (fun p => p.valid)).length = 20 := by decide
  have hlen : (wildcardIPList wildcardProbes).length = 20 := by decide
  have hdlen : (wildcardIPList wildcardProbes).dedup.length = 1 := by decide
  rw [hflen] at hrate
  rw [hlen, hdlen] at hrep
  have h1 : (detectWildcardAdvanced wildcardProbes).successRate = 100 := by
    rw [hrate]; norm_num
  have h2 : (detectWildcardAdvanced wildcardProbes).ipRepeatRate = 95 := by
    rw [hrep, if_pos (by norm_num : (0 : Nat) < 20)]; norm_num
  refine ⟨h1, h2, ?_⟩
  exact (detectWildcard_flag wildcardProbes).mpr (by rw [h1, h2]; norm_num)

/-- C3 counterexample: with all 20 probes resolving to the single fixed
IP 5.5.5.5 the computed IP repeat rate is (20-1)/20*100 = 95, not the
100 the claim states. -/
theorem wildcard_fixed_ip_repeat_rate_counterexample :
    (detectWildcardAdvanced wildcardProbes).ipRepeatRate = 95 ∧
    ¬ (detectWildcardAdvanced wildcardProbes).ipRepeatRate = 100 := by
  have h := wildcardProbes_rates
  exact ⟨h.2.1, by rw [h.2.1]; norm_num⟩

/-- C3 amended: when all 20 probes resolve to the same single fixed IP,
the detection computes successRate = 100 and ipRepeatRate = 95 (19
repeated IPs out of 20), hence isWildcard = true, and the brute engine
returns an empty subdomain list with a nil error regardless of the
dictionary phase, which is never consulted. -/
theorem wildcard_fixed_ip_skips_brute (dictionaryPhase : Unit → List String) :
    (detectWildcardAdvanced wildcardProbes).successRate = 100 ∧
    (detectWildcardAdvanced wildcardProbes).ipRepeatRate = 95 ∧
    (detectWildcardAdvanced wildcardProbes).isWildcard = true ∧
    bruteRun (detectWildcardAdvanced wildcardProbes) dictionaryPhase = ([], none) := by
  have h := wildcardProbes_rates
  exact ⟨h.1, h.2.1, h.2.2, by simp [bruteRun, h.2.2]⟩

/-- C3 witness: instantiated at a concrete dictionary phase. -/
theorem wildcard_fixed_ip_skips_brute_witness :
    bruteRun (detectWildcardAdvanced wildcardProbes) (fun _ => ["x.example.com"]) = ([], none) :=
  (wildcard_fixed_ip_skips_brute (fun _ => ["x.example.com"])).2.2.2

/-- C7 counterexample: a candidate whose DNS answer holds a CNAME record
but no A record is marked not valid by the dictionary phase, against the
claim that a CNAME-only candidate is valid. -/
theorem querySubdomain_cname_only_counterexample :
    queryA [DNSRecord.cname "ghs.googlehosted.com"] = [] ∧
    (querySubdomain "mail.example.com" [DNSRecord.cname "ghs.googlehosted.com"]).valid = false ∧
    isValidSubdomain
      (querySubdomain "mail.example.com" [DNSRecord.cname "ghs.googlehosted.com"]) = false := by
  refine ⟨rfl, rfl, rfl⟩

/-- C7 amended: a candidate's BruteForceResult is marked valid iff its A
query returned at least one IP; the engine never populates CNAMEs, so a
candidate resolving only to a CNAME is not valid, and the stored-result
gate isValidSubdomain agrees with the valid flag. -/
theorem querySubdomain_valid_iff_a_record (sub : String) (answer : List DNSRecord) :
    ((querySubdomain sub answer).valid = true ↔ queryA answer ≠ []) ∧
    (querySubdomain sub answer).cnames = [] ∧
    (isValidSubdomain (querySubdomain sub answer) = true ↔
      (querySubdomain sub answer).valid = true) := by
  rcases h : queryA answer with _ | ⟨ip, rest⟩ <;>
    simp [querySubdomain, isValidSubdomain, h]

/-- C7 witness: one A record makes the candidate valid. -/
theorem querySubdomain_valid_iff_a_record_witness :
    (querySubdomain "www.example.com" [DNSRecord.a "93.184.216.34"]).valid = true :=
  (querySubdomain_valid_iff_a_record "www.example.com" [DNSRecord.a "93.184.216.34"]).1.mpr
    (by decide)

/-- C5: a collector error or recovered panic never aborts its stage or
the run: the stage runner always reports a nil error, every enabled
collector that returned successfully still has all its subdomains in
the stage result, and RunAllModules always returns a nil error. -/
theorem runAllModules_failure_isolation (env : NetEnv)
    (stages : List (List ModuleSpec)) (validationEnabled : Bool) :
    (RunAllModules env stages validationEnabled).runError = none ∧
    (∀ st : List ModuleSpec, (runModulesWithConcurrency st).2.2 = none) ∧
    (∀ st ∈ stages, ∀ m ∈ st, m.enabled = true →
      ∀ subs, m.outcome = ModuleOutcome.ok subs →
      ∀ s ∈ subs, s ∈ (runModulesWithConcurrency st).1) := by
  refine ⟨?_, ?_, ?_⟩
  · simp only [RunAllModules]
    split <;> rfl
  · intro st
    unfold runModulesWithConcurrency
    split <;> rfl
  · intro st hst m hm hen subs hout s hs
    have hne : st ≠ [] := List.ne_nil_of_mem hm
    unfold runModulesWithConcurrency
    rw [if_neg hne]
    simp only [List.mem_flatMap]
    refine ⟨m, List.mem_filter.mpr ⟨hm, by simp [hen]⟩, ?_⟩
    rw [hout]
    exact hs

/-- C5 witness: a stage holding one succeeding collector alongside a
panicking one and a failing one still contributes the successful
collector's subdomain, and the run reports no error. -/
theorem runAllModules_failure_isolation_witness :
    "api.example.com" ∈ (runModulesWithConcurrency
      [{ name := "CrtshQuery", enabled := true,
         outcome := ModuleOutcome.ok ["api.example.com"] },
       { name := "GoogleSearch", enabled := true,
         outcome := ModuleOutcome.panicked "nil dereference" },
       { name := "BingSearch", enabled := true,
         outcome := ModuleOutcome.err "http 500" }]).1 ∧
    (RunAllModules ⟨fun _ => [], fun _ _ => false⟩
      [[{ name := "CrtshQuery", enabled := true,
          outcome := ModuleOutcome.ok ["api.example.com"] },
        { name := "GoogleSearch", enabled := true,
          outcome := ModuleOutcome.panicked "nil dereference" },
        { name := "BingSearch", enabled := true,
          outcome := ModuleOutcome.err "http 500" }]] false).runError = none := by
  have h := runAllModules_failure_isolation ⟨fun _ => [], fun _ _ => false⟩
    [[{ name := "CrtshQuery", enabled := true,
        outcome := ModuleOutcome.ok ["api.example.com"] },
      { name := "GoogleSearch", enabled := true,
        outcome := ModuleOutcome.panicked "nil dereference" },
      { name := "BingSearch", enabled := true,
        outcome := ModuleOutcome.err "http 500" }]] false
  refine ⟨?_, h.1⟩
  exact h.2.2
    [{ name := "CrtshQuery", enabled := true,
       outcome := ModuleOutcome.ok ["api.example.com"] },
     { name := "GoogleSearch", enabled := true,
       outcome := ModuleOutcome.panicked "nil dereference" },
     { name := "BingSearch", enabled := true,
       outcome := ModuleOutcome.err "http 500" }] (by simp)
    { name := "CrtshQuery", enabled := true,
      outcome := ModuleOutcome.ok ["api.example.com"] } (by simp)
    rfl ["api.example.com"] rfl "api.example.com" (by simp)

/-- Helper: every branch of validateSingleDomain keeps the input string
as the result's subdomain. -/
theorem validateSingleDomain_subdomain (env : NetEnv) (d : String) :
    (validateSingleDomain env d).subdomain = d := by
  cases h : env.resolveDomain d with
  | nil => simp [validateSingleDomain, h]
  | cons ip0 rest =>
      by_cases hp : validatePing env ip0 = true <;>
        simp [validateSingleDomain, h, hp]

/-- Helper: a nonempty input in already-normalized form survives the
deduplication loop unless it is already in the seen set. -/
theorem mem_dedupLoop_of_mem (s : String) (hnorm : strToLower (strTrim s) = s)
    (hne : s ≠ "") :
    ∀ (l seen : List String), s ∈ l → s ∈ dedupLoop l seen ∨ s ∈ seen := by
  intro l
  induction l with
  | nil =>
      intro seen hmem
      cases hmem
  | cons d rest ih =>
      intro seen hmem
      simp only [dedupLoop]
      rcases List.mem_cons.mp hmem with heq | hrest
      · subst heq
        rw [hnorm]
        by_cases hseen : s ∈ seen
        · rw [if_neg (fun hc => hc.2 hseen)]
          exact Or.inr hseen
        · rw [if_pos ⟨hne, hseen⟩]
          exact Or.inl (List.mem_cons_self _ _)
      · split_ifs with hcond
        · rcases ih (strToLower (strTrim d) :: seen) hrest with h1 | h2
          · exact Or.inl (List.mem_cons_of_mem _ h1)
          · rcases List.mem_cons.mp h2 with heq2 | h3
            · exact Or.inl (by rw [heq2]; exact List.mem_cons_self _ _)
            · exact Or.inr h3
        · exact ih seen hrest

/-- Helper: membership in the deduplicated list for normalized
nonempty inputs. -/
theorem mem_deduplicateDomains_of_mem (s : String) (domains : List String)
    (hnorm : strToLower (strTrim s) = s) (hne : s ≠ "") (hmem : s ∈ domains) :
    s ∈ deduplicateDomains domains := by
  rcases mem_dedupLoop_of_mem s hnorm hne domains [] hmem with h | h
  · exact h
  · cases h

/-- Helper: the validator emits exactly one result per deduplicated
candidate, carrying that candidate as its subdomain. -/
theorem ValidateDomains_subdomains (env : NetEnv) (domains : List String)
    (hne : domains ≠ []) :
    (ValidateDomains env domains).map (fun v => v.subdomain) =
      deduplicateDomains domains := by
  unfold ValidateDomains
  rw [if_neg hne, List.map_map]
  have hcomp : ((fun v : ValidationResult => v.subdomain) ∘ validateSingleDomain env) = id := by
    funext d
    exact validateSingleDomain_subdomain env d
  rw [hcomp, List.map_id]

/-- C6 counterexample: a collected subdomain that is not in normalized
form ("WWW.example.com") is erased from its stage's result list by the
cross-referencing pass, and the aggregate list no longer carries that
exact string: validation normalizes to lowercase but the dispatcher
cross-references by exact string equality. -/
theorem validation_drops_nonnormalized_counterexample :
    "WWW.example.com" ∈ (runModulesWithConcurrency
      [{ name := "GoogleSearch", enabled := true,
         outcome := ModuleOutcome.ok ["WWW.example.com"] }]).1 ∧
    (RunAllModules ⟨fun _ => [], fun _ _ => false⟩
      [[{ name := "GoogleSearch", enabled := true,
          outcome := ModuleOutcome.ok ["WWW.example.com"] }]] true).stepResults = [[]] ∧
    "WWW.example.com" ∉ (RunAllModules ⟨fun _ => [], fun _ _ => false⟩
      [[{ name := "GoogleSearch", enabled := true,
          outcome := ModuleOutcome.ok ["WWW.example.com"] }]] true).allSubdomains := by
  refine ⟨by decide, by decide, by decide⟩

/-- C6 amended: the validator emits one ValidationResult per
deduplicated candidate including dead ones, and every collected
subdomain that is already in normalized form (trimmed, lowercase,
nonempty) is retained by the validation pass, both in its stage result
list and in the aggregate list. -/
theorem validation_retains_normalized_subdomains (env : NetEnv)
    (stages : List (List ModuleSpec)) (i : Nat) (hi : i < stages.length) (s : String)
    (hs : s ∈ (runModulesWithConcurrency stages[i]).1)
    (hnorm : strToLower (strTrim s) = s) (hne : s ≠ "") :
    (RunAllModules env stages true).validationResults.map (fun v => v.subdomain) =
      deduplicateDomains
        ((stages.map (fun st => (runModulesWithConcurrency st).1)).flatten) ∧
    s ∈ (RunAllModules env stages true).stepResults.getD i [] ∧
    s ∈ (RunAllModules env stages true).allSubdomains := by
  have hmemjoin :
      s ∈ (stages.map (fun st => (runModulesWithConcurrency st).1)).flatten := by
    refine List.mem_flatten.mpr
      ⟨(runModulesWithConcurrency stages[i]).1, ?_, hs⟩
    exact List.mem_map_of_mem _ (stages.getElem_mem hi)
  have hnonempty :
      (stages.map (fun st => (runModulesWithConcurrency st).1)).flatten ≠ [] :=
    List.ne_nil_of_mem hmemjoin
  have hmapeq :
      (ValidateDomains env
          ((stages.map (fun st => (runModulesWithConcurrency st).1)).flatten)).map
        (fun v => v.subdomain) =
      deduplicateDomains
        ((stages.map (fun st => (runModulesWithConcurrency st).1)).flatten) :=
    ValidateDomains_subdomains env _ hnonempty
  have hdedup :
      s ∈ deduplicateDomains
        ((stages.map (fun st => (runModulesWithConcurrency st).1)).flatten) :=
    mem_deduplicateDomains_of_mem s _ hnorm hne hmemjoin
  have hsd :
      s ∈ (ValidateDomains env
          ((stages.map (fun st => (runModulesWithConcurrency st).1)).flatten)).map
        (fun v => v.subdomain) := by
    rw [hmapeq]
    exact hdedup
  obtain ⟨v, hv, hveq⟩ := List.mem_map.mp hsd
  have hany :
      (ValidateDomains env
          ((stages.map (fun st => (runModulesWithConcurrency st).1)).flatten)).any
        (fun w => w.subdomain == s) = true :=
    List.any_eq_true.mpr ⟨v, hv, by simp [hveq]⟩
  simp only [RunAllModules]
  split
  case isFalse hcond =>
    exact absurd ⟨by trivial, hnonempty⟩ hcond
  case isTrue hcond =>
    refine ⟨hmapeq, ?_, ?_⟩
    · have hlen :
          i < ((stages.map (fun st => (runModulesWithConcurrency st).1)).map
            (fun sr => crossReferenceStep sr
              (ValidateDomains env
                ((stages.map (fun st => (runModulesWithConcurrency st).1)).flatten)))).length := by
        simpa using hi
      rw [List.getD_eq_getElem _ _ hlen, List.getElem_map, List.getElem_map]
      exact List.mem_filter.mpr ⟨hs, hany⟩
    · rw [hmapeq]
      exact hdedup

/-- C6 witness: an already-normalized collected subdomain is present in
the aggregate list after validation. -/
theorem validation_retains_normalized_subdomains_witness :
    "www.example.com" ∈ (RunAllModules ⟨fun _ => [], fun _ _ => false⟩
      [[{ name := "GoogleSearch", enabled := true,
          outcome := ModuleOutcome.ok ["www.example.com"] }]] true).allSubdomains := by
  have h := validation_retains_normalized_subdomains ⟨fun _ => [], fun _ _ => false⟩
    [[{ name := "GoogleSearch", enabled := true,
        outcome := ModuleOutcome.ok ["www.example.com"] }]] 0 (by simp) "www.example.com"
    (by decide) (by decide) (by decide)
  exact h.2.2

/-- Helper: string append concatenates the character data. -/
theorem strData_append (s t : String) : (s ++ t).data = s.data ++ t.data := rfl

/-- Helper: appending "." ++ domain never yields the bare domain. -/
theorem append_dot_ne (w domain : String) : w ++ "." ++ domain ≠ domain := by
  intro h
  have hl := congrArg String.length h
  rw [String.length_append, String.length_append] at hl
  have hdot : ("." : String).length = 1 := rfl
  rw [hdot] at hl
  omega

/-- Helper: a dot-joined candidate of clean parts is clean. -/
theorem cleanString_append_dot (w domain : String)
    (hw : cleanString w) (hd : cleanString domain) :
    cleanString (w ++ "." ++ domain) := by
  intro ch hch
  simp only [strData_append] at hch
  rcases List.mem_append.mp hch with h1 | h2
  · rcases List.mem_append.mp h1 with h3 | h4
    · exact hw ch h3
    · have hdd : ch = '.' := by simpa using h4
      subst hdd
      refine ⟨by decide, by decide, by decide⟩
  · exact hd ch h2

/-- Helper: membership characterization of the generated dictionary. -/
theorem generateDict_mem (domain : String) (fileLines : List String) (c : String) :
    c ∈ generateDict domain fileLines ↔
      ∃ line ∈ fileLines, strTrim line ≠ "" ∧ strStartsWith (strTrim line) "#" = false ∧
        c = strTrim line ++ "." ++ domain := by
  induction fileLines with
  | nil => simp [generateDict]
  | cons l rest ih =>
      simp only [generateDict, List.foldr_cons] at ih ⊢
      split_ifs with hcond
      · rw [ih]
        constructor
        · rintro ⟨line, hline, hp⟩
          exact ⟨line, List.mem_cons_of_mem _ hline, hp⟩
        · rintro ⟨line, hline, h1, h2, h3⟩
          rcases List.mem_cons.mp hline with heq | hmem
          · subst heq
            rcases hcond with hc1 | hc2
            · exact absurd hc1 h1
            · rw [h2] at hc2
              cases hc2
          · exact ⟨line, hmem, h1, h2, h3⟩
      · push_neg at hcond
        constructor
        · intro hc
          rcases List.mem_cons.mp hc with heq | hmem
          · exact ⟨l, List.mem_cons_self _ _, hcond.1,
              by simpa using hcond.2, heq⟩
          · obtain ⟨line, hline, hp⟩ := ih.mp hmem
            exact ⟨line, List.mem_cons_of_mem _ hline, hp⟩
        · rintro ⟨line, hline, h1, h2, h3⟩
          rcases List.mem_cons.mp hline with heq | hmem
          · subst heq
            exact List.mem_cons.mpr (Or.inl h3)
          · exact List.mem_cons_of_mem _ (ih.mpr ⟨line, hmem, h1, h2, h3⟩)

/-- C8 counterexample: a wordlist line with interior whitespace yields a
candidate containing a space — TrimSpace only strips leading and
trailing whitespace, so the claim's no-whitespace guarantee fails on
such a wordlist. -/
theorem generateDict_whitespace_counterexample :
    generateDict "example.com" ["a b"] = ["a b.example.com"] ∧
    ¬ cleanString "a b.example.com" := by
  constructor
  · decide
  · intro h
    have hsp := h ' ' (by decide)
    exact absurd hsp.1 (by decide)

/-- C8 amended: every generated candidate is trimmedWord + "." + domain
for some non-blank wordlist line not starting with '#' (blank and
comment lines yield no candidate), ends with "." + domain, and is never
equal to the domain; and provided each kept trimmed word and the domain
themselves contain no whitespace or control characters, neither does
the candidate. -/
theorem generateDict_candidate_shape (domain : String) (fileLines : List String)
    (c : String) (hc : c ∈ generateDict domain fileLines) :
    (∃ line ∈ fileLines, strTrim line ≠ "" ∧ strStartsWith (strTrim line) "#" = false ∧
      c = strTrim line ++ "." ++ domain) ∧
    (∃ w, w ≠ "" ∧ c = w ++ "." ++ domain) ∧
    c ≠ domain ∧
    ((∀ line ∈ fileLines, cleanString (strTrim line)) → cleanString domain →
      cleanString c) := by
  obtain ⟨line, hline, h1, h2, h3⟩ := (generateDict_mem domain fileLines c).mp hc
  refine ⟨⟨line, hline, h1, h2, h3⟩, ⟨strTrim line, h1, h3⟩, ?_, ?_⟩
  · rw [h3]
    exact append_dot_ne _ _
  · intro hlines hdom
    rw [h3]
    exact cleanString_append_dot _ _ (hlines line hline) hdom

/-- C8 witness: the candidate generated from the wordlist line "www"
differs from the domain and is clean. -/
theorem generateDict_candidate_shape_witness :
    "www.example.com" ≠ "example.com" ∧ cleanString "www.example.com" := by
  have h := generateDict_candidate_shape "example.com" ["www"] "www.example.com" (by decide)
  exact ⟨h.2.2.1, h.2.2.2 (by decide) (by decide)⟩

/-- C9 counterexample: in the 50-host scenario (40 shared-title 200s,
10 403s, threshold 30) the output keeps all 10 HTTP-403 entries, not
exactly 1: the 403 cap only fires when the 403 count exceeds the
threshold, and 10 is not greater than 30. -/
theorem postProcess_403_count_counterexample :
    ((PostProcessHosts demoProbe 30 demoHosts).getD []).countP
      (fun r => r.statusCode == 403) = 10 ∧
    ¬ ((PostProcessHosts demoProbe 30 demoHosts).getD []).countP
      (fun r => r.statusCode == 403) = 1 := by
  have h : ((PostProcessHosts demoProbe 30 demoHosts).getD []).countP
      (fun r => r.statusCode == 403) = 10 := by decide
  refine ⟨h, ?_⟩
  rw [h]
  decide

/-- C9 amended: with 50 hosts above the threshold of 30, 40 returning
HTTP 200 under one shared title and 10 returning HTTP 403, the pass is
triggered and outputs exactly 1 entry for the HTTP-200 group and
exactly 10 entries (one per host) for the HTTP-403 group, since the 403
cap applies only when the 403 count exceeds the threshold. -/
theorem postProcess_title_dedup_and_403_cap :
    (PostProcessHosts demoProbe 30 demoHosts).isSome = true ∧
    ((PostProcessHosts demoProbe 30 demoHosts).getD []).countP
      (fun r => r.statusCode == 200) = 1 ∧
    ((PostProcessHosts demoProbe 30 demoHosts).getD []).countP
      (fun r => r.statusCode == 403) = 10 := by
  refine ⟨by decide, by decide, by decide⟩

/-- Helper: a record in the accumulated 200 list either was already
there or comes from the processed host with final status 200. -/
theorem processHost_ok_mem (probe : String → FetchOutcome) (st : PPState)
    (host : String) (r : HostRecord)
    (hr : r ∈ (processHost probe st host).okOrdered) :
    r ∈ st.okOrdered ∨ (r.host = host ∧ (fetchHost probe host).status = 200) := by
  simp only [processHost] at hr
  split_ifs at hr with h200 htitle h403
  · exact Or.inl hr
  · rcases List.mem_append.mp hr with h1 | h2
    · exact Or.inl h1
    · have hrec := List.mem_singleton.mp h2
      right
      rw [hrec]
      exact ⟨rfl, h200⟩
  · exact Or.inl hr
  · exact Or.inl hr

/-- Helper: a record in the accumulated 403 list either was already
there or comes from the processed host with final status 403. -/
theorem processHost_forbidden_mem (probe : String → FetchOutcome) (st : PPState)
    (host : String) (r : HostRecord)
    (hr : r ∈ (processHost probe st host).forbidden) :
    r ∈ st.forbidden ∨ (r.host = host ∧ (fetchHost probe host).status = 403) := by
  simp only [processHost] at hr
  split_ifs at hr with h200 htitle h403
  · exact Or.inl hr
  · exact Or.inl hr
  · rcases List.mem_append.mp hr with h1 | h2
    · exact Or.inl h1
    · have hrec := List.mem_singleton.mp h2
      right
      rw [hrec]
      exact ⟨rfl, h403⟩
  · exact Or.inl hr

/-- Helper: the fetch loop only ever accumulates hosts whose final
status is 200 (in the 200 list) or 403 (in the 403 list). -/
theorem foldl_processHost_invariant (probe : String → FetchOutcome) :
    ∀ (l : List String) (st : PPState),
      (∀ r ∈ st.okOrdered, (fetchHost probe r.host).status = 200) →
      (∀ r ∈ st.forbidden, (fetchHost probe r.host).status = 403) →
      (∀ r ∈ (l.foldl (processHost probe) st).okOrdered,
          (fetchHost probe r.host).status = 200) ∧
      (∀ r ∈ (l.foldl (processHost probe) st).forbidden,
          (fetchHost probe r.host).status = 403) := by
  intro l
  induction l with
  | nil =>
      intro st h1 h2
      exact ⟨h1, h2⟩
  | cons x rest ih =>
      intro st h1 h2
      simp only [List.foldl_cons]
      apply ih
      · intro r hr
        rcases processHost_ok_mem probe st x r hr with hmem | ⟨hhost, hstat⟩
        · exact h1 r hmem
        · rw [hhost]
          exact hstat
      · intro r hr
        rcases processHost_forbidden_mem probe st x r hr with hmem | ⟨hhost, hstat⟩
        · exact h2 r hmem
        · rw [hhost]
          exact hstat

/-- C10: whenever the post-processing pass is triggered, any host whose
probe ends with a final status other than 200 or 403 is entirely absent
from the output list: no output entry carries it as its subdomain. -/
theorem postProcess_drops_other_statuses (probe : String → FetchOutcome)
    (resultCheckLimit : Int) (hosts : List String) (out : List SubdomainResult)
    (hout : PostProcessHosts probe resultCheckLimit hosts = some out)
    (h : String)
    (h200 : (fetchHost probe h).status ≠ 200)
    (h403 : (fetchHost probe h).status ≠ 403) :
    ∀ r ∈ out, r.subdomain ≠ h := by
  intro r hr heq
  have hinv := foldl_processHost_invariant probe (uniqueStrings hosts)
    { okTitles := [], okOrdered := [], forbidden := [] }
    (by intro r0 hr0; cases hr0) (by intro r0 hr0; cases hr0)
  simp only [PostProcessHosts] at hout
  split_ifs at hout
  all_goals injection hout with hout
  all_goals subst hout
  all_goals rcases List.mem_append.mp hr with hok | hforb
  all_goals try
    (obtain ⟨rec, hrec, hre⟩ := List.mem_map.mp hok
     subst hre
     simp only [okEntry] at heq
     exact h200 (heq ▸ hinv.1 rec hrec))
  all_goals obtain ⟨rec, hrec, hre⟩ := List.mem_map.mp hforb
  all_goals subst hre
  all_goals simp only [forbiddenEntry] at heq
  all_goals refine h403 (heq ▸ hinv.2 rec ?_)
  all_goals first
    | exact hrec
    | exact List.take_subset _ _ hrec

/-- C10 witness: with one 200 host and one host answering 301 over
HTTPS and 404 over HTTP, the single output entry does not carry the
dropped host. -/
theorem postProcess_drops_other_statuses_witness :
    (okEntry { host := "ok.example.com", status := 200, title := "Welcome",
               protocol := Protocol.https }).subdomain ≠ "gone.example.com" := by
  have h := postProcess_drops_other_statuses dropProbe 1
    ["ok.example.com", "gone.example.com"]
    ((PostProcessHosts dropProbe 1 ["ok.example.com", "gone.example.com"]).getD [])
    (by decide) "gone.example.com" (by decide) (by decide)
  exact h _ (by decide)
